import Mathlib

/-
  Verification development for the QCLAS spectral-calculation engine
  (`specCal.py`).  The Python functions `calDas`, `calWms` (grid and
  driving-current synthesis) and `peakTroughHeight` are shallowly embedded
  below over an arbitrary linearly ordered field `α`; rational instances
  make every definition executable, and the real instance is used where
  the source applies `exp`, `log` or `sin`.

  The external HITRAN adapter (`hapi`) is out of scope of the repository;
  it is modelled as an abstract record of lookup and line-shape functions,
  exactly mirroring the calls `calDas` makes into it.
-/

namespace QclasSpec

variable {α : Type} [LinearOrderedField α]

/-- Boltzmann constant `kb = 1.38064852e-23` (`specCal.py` line 40),
written as an exact rational. -/
def kb : α := 138064852 / 10 ^ 31

/-- Avogadro's number `nA = 6.022e23` (`specCal.py` line 41). -/
def nA : α := 6022 * 10 ^ 20

/-- `mixRatio2numDen(c, p, T) = p * 1.013e5 / kb / T * 1e-6 * c`
(`specCal.py` lines 45-64). -/
def mixRatio2numDen (c p T : α) : α :=
  p * 101300 / kb / T * (1 / 10 ^ 6) * c

/-- One gas entry of `gasList`: keys `gas`, `p` (hPa), `t` (K), `l` (cm),
`c` (mixing ratio), as documented in the `calDas` docstring. -/
structure GasParams (α : Type) where
  gas : String
  p : α
  t : α
  l : α
  c : α
deriving DecidableEq

/-- The line table the adapter holds for one gas: the columns `nu` and `sw`
read by `hapi.getColumn` and filtered by `hapi.select`. -/
structure LineTable (α : Type) where
  nu : List α
  sw : List α
deriving DecidableEq

/-- Abstract model of the external `hapi` collaborator: table lookup
(`tableList` / `getColumn`) and the four line-shape entry points.  `calDas`
passes the selected lines, the wavenumber grid, `T` and `p` (and, except for
the Voigt call, the intensity threshold); each call returns a grid and a
coefficient array. -/
structure Hapi (α : Type) where
  tables : String → Option (LineTable α)
  absVoigt : LineTable α → List α → α → α → List α × List α
  absHT : LineTable α → List α → α → α → α → List α × List α
  absDoppler : LineTable α → List α → α → α → α → List α × List α
  absLorentz : LineTable α → List α → α → α → α → List α × List α

/-- One entry of the `results` list built by `calDas`: keys `gasParams`,
`nu`, `spectrum`. -/
structure DasResult (α : Type) where
  gasParams : GasParams α
  nu : List α
  spectrum : List α
deriving DecidableEq

/-- Observable outcome of a `calDas` call: the Python function either
returns the results list, returns an error string (`return str(...)`), or
lets an exception escape (`raise`, or a library error such as `np.min` of
an empty array). -/
inductive DasOutcome (α : Type) where
  | ok : List (DasResult α) → DasOutcome α
  | errString : String → DasOutcome α
  | raised : String → DasOutcome α
deriving DecidableEq

/-- Terminal failure produced by the per-gas validation part of the loop
body (soft string returns vs. escaping exceptions). -/
inductive DasFail where
  | errString : String → DasFail
  | raised : String → DasFail
deriving DecidableEq

/-- Embed a per-gas failure into the call outcome. -/
def DasFail.toOutcome : DasFail → DasOutcome α
  | .errString s => .errString s
  | .raised s => .raised s

/-- Message of `return str('Cannot find specified gas.')` (line 155). -/
def gasMsg : String := "Cannot find specified gas."

/-- Message of the range-mismatch return (lines 161-162). -/
def rangeMsg : String :=
  "Cannot find lines within specified wavenumber range, please download data."

/-- Message of `raise Exception('No suitable profile.')` (line 197). -/
def profMsg : String := "No suitable profile."

/-- NameError escaping when `n` was never assigned but mode scaling needs
it (lines 199/201 with both conversion flags false). -/
def nameErrMsg : String := "NameError: name n is not defined"

/-- `np.min` / `np.max` of an empty array raise a ValueError. -/
def emptyMsg : String := "ValueError: zero-size array reduction"

/-- `hapi.select` with condition
`('AND', ('BETWEEN', 'nu', min(nu), max(nu)), ('>=', 'sw', iCut))`
(line 163): keep the lines whose `nu` lies in `[lo, hi]` and whose `sw` is
at least `iCut`. -/
def selectLines (tbl : LineTable α) (lo hi iCut : α) : LineTable α :=
  let pairs := (tbl.nu.zip tbl.sw).filter
    (fun q => decide (lo ≤ q.1) && decide (q.1 ≤ hi) && decide (iCut ≤ q.2))
  ⟨pairs.map Prod.fst, pairs.map Prod.snd⟩

/-- The profile dispatch of lines 174-197: each of the four recognised
profile strings calls the corresponding adapter function; any other string
reaches the `else: raise` branch, modelled by `none`. -/
def applyProfile (H : Hapi α) (prof : String) (lines : LineTable α)
    (nu : List α) (t p iCut : α) : Option (List α × List α) :=
  if prof = "Voigt" then some (H.absVoigt lines nu t p)
  else if prof = "HT" then some (H.absHT lines nu t p iCut)
  else if prof = "Doppler" then some (H.absDoppler lines nu t p iCut)
  else if prof = "Lorentz" then some (H.absLorentz lines nu t p iCut)
  else none

/-- The two concentration-conversion assignments of lines 169-172:
`if xi_to_nden: n = mixRatio2numDen(c, p, t)` then
`if mden_to_nden: n = nA * c * 1e-6` (the latter overriding the former).
`none` when neither flag is set, leaving `n` unassigned. -/
def nOf (xi mden : Bool) (g : GasParams α) : Option α :=
  if mden then some (nA * g.c * (1 / 10 ^ 6))
  else if xi then some (mixRatio2numDen g.c (g.p / 1013) g.t)
  else none

/-- The number density a gas receives when at least one flag is set. -/
def nVal (xi mden : Bool) (g : GasParams α) : α :=
  (nOf xi mden g).getD 0

/-- Validation-and-adapter part of one `calDas` loop iteration
(lines 154-197): gas lookup, the four-way wavenumber-range test on the
current grid, line selection, and the profile dispatch.  On success it
yields the adapter's returned grid together with the raw coefficient
array. -/
def dasCheck (H : Hapi α) (prof : String) (iCut : α) (g : GasParams α)
    (nu : List α) : Sum DasFail (List α × List α) :=
  match H.tables g.gas with
  | none => .inl (.errString gasMsg)
  | some tbl =>
    match nu.min?, nu.max?, tbl.nu.min?, tbl.nu.max? with
    | some mn, some mx, some tmn, some tmx =>
      if mn < tmn - 1 ∨ mn > tmx + 1 ∨ mx > tmx + 1 ∨ mx < tmn - 1 then
        .inl (.errString rangeMsg)
      else
        match applyProfile H prof (selectLines tbl mn mx iCut) nu g.t
            (g.p / 1013) iCut with
        | none => .inl (.raised profMsg)
        | some r => .inr r
    | _, _, _, _ => .inl (.raised emptyMsg)

/-- Mode scaling of lines 198-202 for the two recognised modes; any other
mode string leaves the raw coefficient untouched. -/
def scaleMode (e : α → α) (mode : String) (n l : α) (coeff : List α) :
    List α :=
  if mode = "Absorbance" then coeff.map (fun x => x * n * l)
  else if mode = "Transmission" then coeff.map (fun x => e (-(x * n * l)))
  else coeff

/-- The value of the Python local `n` after the iteration for gas `g`:
the fresh assignment when a conversion flag is set, otherwise whatever `n`
held before (Python locals persist across loop iterations). -/
def nextN (xi mden : Bool) (g : GasParams α) (nPrev : Option α) : Option α :=
  match nOf xi mden g with
  | some v => some v
  | none => nPrev

/-- The `for idx, gasParams in enumerate(gasList)` loop of `calDas`
(lines 153-208).  The local variable `nu` is rebound by every adapter
return (`nu, coeff = hapi.absorptionCoefficient_...`), so it is threaded
through the recursion; likewise the Python local `n` persists across
iterations (`nPrev`).  `e` stands for `np.exp`. -/
def calDasGo (H : Hapi α) (e : α → α) (prof mode : String) (iCut : α)
    (xi mden : Bool) :
    List (GasParams α) → List α → Option α → List (DasResult α) →
    DasOutcome α
  | [], _, _, acc => .ok acc.reverse
  | g :: gs, nu, nPrev, acc =>
    match dasCheck H prof iCut g nu with
    | .inl d => d.toOutcome
    | .inr (nu2, coeff) =>
      if mode = "Absorbance" ∨ mode = "Transmission" then
        match nextN xi mden g nPrev with
        | none => .raised nameErrMsg
        | some n =>
          calDasGo H e prof mode iCut xi mden gs nu2 (some n)
            (⟨g, nu2, scaleMode e mode n g.l coeff⟩ :: acc)
      else
        calDasGo H e prof mode iCut xi mden gs nu2 (nextN xi mden g nPrev)
          (⟨g, nu2, coeff⟩ :: acc)

/-- `calDas(gasList, nu, profile, mode, iCut, xi_to_nden, mden_to_nden)`
(`specCal.py` lines 121-209). -/
def calDas (H : Hapi α) (e : α → α) (gasList : List (GasParams α))
    (nu : List α) (prof mode : String) (iCut : α) (xi mden : Bool) :
    DasOutcome α :=
  calDasGo H e prof mode iCut xi mden gasList nu none []

/-- Concrete single-line table used by the rational test fixtures. -/
def qTbl : LineTable ℚ := ⟨[2], [1]⟩

/-- Concrete adapter fixture over `ℚ`: one gas `G` with one line at
`nu = 2`, every profile call returning the constant answer `([2], [1])`. -/
def qH : Hapi ℚ :=
  ⟨fun s => if s = "G" then some qTbl else none,
   fun _ _ _ _ => ([2], [1]),
   fun _ _ _ _ _ => ([2], [1]),
   fun _ _ _ _ _ => ([2], [1]),
   fun _ _ _ _ _ => ([2], [1])⟩

/-- Concrete gas fixture over `ℚ`. -/
def qGas : GasParams ℚ := ⟨"G", 1013, 1, 1, 0⟩

example : dasCheck qH "Voigt" (0:ℚ) qGas [2] = .inr ([2],[1]) := by
  norm_num +decide [dasCheck, qH, qGas, qTbl, selectLines, applyProfile]

example :
    calDas qH (fun x => x) [qGas] [(2 : ℚ)] "Voigt" "Coefficient" 0
      true false = .ok [⟨qGas, [2], [1]⟩] := by
  norm_num +decide [calDas, calDasGo, dasCheck, qH, qGas, qTbl, selectLines,
    applyProfile, nOf, nextN, scaleMode]

example :
    calDas qH (fun x => x) [qGas] [(10 : ℚ)] "Voigt" "Coefficient" 0
      true false = .errString rangeMsg := by
  norm_num +decide [calDas, calDasGo, dasCheck, qH, qGas, qTbl, selectLines,
    applyProfile, DasFail.toOutcome]

example :
    calDas qH (fun x => x) [qGas] [(2 : ℚ)] "Gauss" "Absorbance" 0
      true false = .raised profMsg := by
  norm_num +decide [calDas, calDasGo, dasCheck, qH, qGas, qTbl, selectLines,
    applyProfile, DasFail.toOutcome]

/-! ## Generic facts about the embedded `calDas` -/

/-- The minimum of a nonempty list is at most its maximum. -/
lemma min?_le_max? {l : List α} {mn mx : α}
    (h1 : l.min? = some mn) (h2 : l.max? = some mx) : mn ≤ mx := by
  have hmem : mn ∈ l := List.min?_mem (fun a b => min_choice a b) h1
  exact (List.max?_le_iff (fun _ _ _ => max_le_iff) h2).mp le_rfl mn hmem

/-- Spec-side reading of "its tabulated line data overlaps `grid` within a
1 cm⁻¹ tolerance on both ends": both ends of the grid lie inside the
table's line range widened by the tolerance. -/
def gridWithinTol (mn mx tmn tmx : α) : Prop :=
  tmn - 1 ≤ mn ∧ mx ≤ tmx + 1

/-- For a nonempty grid the four-way test of lines 157-160 is exactly the
negation of `gridWithinTol`. -/
lemma rangeCond_iff_not_within {mn mx tmn tmx : α} (hle : mn ≤ mx) :
    (mn < tmn - 1 ∨ mn > tmx + 1 ∨ mx > tmx + 1 ∨ mx < tmn - 1) ↔
      ¬ gridWithinTol mn mx tmn tmx := by
  unfold gridWithinTol
  constructor
  · rintro (h | h | h | h) <;> intro hw
    · exact absurd hw.1 (not_le.mpr h)
    · exact absurd (hle.trans hw.2) (not_le.mpr h)
    · exact absurd hw.2 (not_le.mpr h)
    · exact absurd (hw.1.trans hle) (not_le.mpr h)
  · intro hw
    by_contra hc
    push_neg at hc
    exact hw ⟨hc.1, hc.2.2.1⟩

/-- Evaluation of the per-gas validation step once the table lookup and the
four extrema are known. -/
lemma dasCheck_eq (H : Hapi α) (prof : String) (iCut : α) (g : GasParams α)
    (nu : List α) (tbl : LineTable α) (mn mx tmn tmx : α)
    (htbl : H.tables g.gas = some tbl)
    (hmn : nu.min? = some mn) (hmx : nu.max? = some mx)
    (htmn : tbl.nu.min? = some tmn) (htmx : tbl.nu.max? = some tmx) :
    dasCheck H prof iCut g nu =
      if mn < tmn - 1 ∨ mn > tmx + 1 ∨ mx > tmx + 1 ∨ mx < tmn - 1 then
        .inl (.errString rangeMsg)
      else
        match applyProfile H prof (selectLines tbl mn mx iCut) nu g.t
            (g.p / 1013) iCut with
        | none => .inl (.raised profMsg)
        | some r => .inr r := by
  unfold dasCheck
  simp only [htbl, hmn, hmx, htmn, htmx]

/-- **C2.** For a known gas and nonempty grid and line table, `calDas` on
the single-gas list returns the range-error string exactly when the grid
does not lie within the gas's tabulated line range extended by the
1 cm⁻¹ tolerance on both ends. -/
theorem calDas_rangeError_iff (H : Hapi α) (e : α → α) (g : GasParams α)
    (tbl : LineTable α) (nu : List α) (prof mode : String) (iCut : α)
    (xi mden : Bool) (mn mx tmn tmx : α)
    (htbl : H.tables g.gas = some tbl)
    (hmn : nu.min? = some mn) (hmx : nu.max? = some mx)
    (htmn : tbl.nu.min? = some tmn) (htmx : tbl.nu.max? = some tmx) :
    calDas H e [g] nu prof mode iCut xi mden = .errString rangeMsg ↔
      ¬ gridWithinTol mn mx tmn tmx := by
  have hle : mn ≤ mx := min?_le_max? hmn hmx
  rw [← rangeCond_iff_not_within hle]
  unfold calDas calDasGo
  rw [dasCheck_eq H prof iCut g nu tbl mn mx tmn tmx htbl hmn hmx htmn htmx]
  by_cases hcond : mn < tmn - 1 ∨ mn > tmx + 1 ∨ mx > tmx + 1 ∨ mx < tmn - 1
  · simp only [if_pos hcond, DasFail.toOutcome]
    exact iff_of_true trivial hcond
  · simp only [if_neg hcond]
    apply iff_of_false ?_ hcond
    cases happ : applyProfile H prof (selectLines tbl mn mx iCut) nu g.t
        (g.p / 1013) iCut with
    | none => simp [DasFail.toOutcome]
    | some r =>
      obtain ⟨nu2, coeff⟩ := r
      simp only []
      by_cases hmode : mode = "Absorbance" ∨ mode = "Transmission"
      · simp only [if_pos hmode]
        cases nextN xi mden g none with
        | none => simp
        | some n => simp [calDasGo]
      · simp only [if_neg hmode]
        simp [calDasGo]

/-- Witness for C2, at the rational fixture: the grid `[10]` lies outside
the single-line table `[2]` by more than the tolerance, and `calDas`
indeed answers with the range-error string. -/
theorem calDas_rangeError_iff_witness :
    (calDas qH (fun x => x) [qGas] [(10 : ℚ)] "Voigt" "Absorbance" 0
        true false = .errString rangeMsg ↔
      ¬ gridWithinTol (10 : ℚ) 10 2 2) :=
  calDas_rangeError_iff qH (fun x => x) qGas qTbl [10] "Voigt" "Absorbance"
    0 true false 10 10 2 2 rfl rfl rfl rfl rfl

/-- **C6 (amended).** An unsupported profile makes `calDas` abort the whole
batch by raising the exception `'No suitable profile.'` while handling the
first gas that passes the gas/range validations: the exception escapes (it
is not returned as a failure string) and no partial results are produced,
whatever gases follow. -/
theorem calDas_unsupported_profile_raises (H : Hapi α) (e : α → α)
    (g : GasParams α) (rest : List (GasParams α)) (nu : List α)
    (prof mode : String) (iCut : α) (xi mden : Bool) (tbl : LineTable α)
    (mn mx tmn tmx : α)
    (htbl : H.tables g.gas = some tbl)
    (hmn : nu.min? = some mn) (hmx : nu.max? = some mx)
    (htmn : tbl.nu.min? = some tmn) (htmx : tbl.nu.max? = some tmx)
    (hrange : ¬(mn < tmn - 1 ∨ mn > tmx + 1 ∨ mx > tmx + 1 ∨ mx < tmn - 1))
    (h1 : prof ≠ "Voigt") (h2 : prof ≠ "HT") (h3 : prof ≠ "Doppler")
    (h4 : prof ≠ "Lorentz") :
    calDas H e (g :: rest) nu prof mode iCut xi mden = .raised profMsg := by
  unfold calDas calDasGo
  rw [dasCheck_eq H prof iCut g nu tbl mn mx tmn tmx htbl hmn hmx htmn htmx]
  unfold applyProfile
  simp only [if_neg hrange, if_neg h1, if_neg h2, if_neg h3, if_neg h4]
  rfl

/-- Counterexample to C6 as stated: on a concrete valid gas and grid, a
misspelled profile is not reported as a returned failure value — the call
outcome is the escaping exception `'No suitable profile.'`. -/
theorem calDas_unsupported_profile_escapes :
    calDas qH (fun x => x) [qGas] [(2 : ℚ)] "Gauss" "Absorbance" 0
      true false = .raised profMsg := by
  norm_num +decide [calDas, calDasGo, dasCheck, qH, qGas, qTbl, selectLines,
    applyProfile, DasFail.toOutcome]

/-- Witness for the amended C6, obtained by instantiating the theorem at a
concrete two-gas batch. -/
theorem calDas_unsupported_profile_raises_witness :
    calDas qH (fun x => x) [qGas, qGas] [(2 : ℚ)] "Lorenz" "Transmission" 0
      true false = .raised profMsg :=
  calDas_unsupported_profile_raises qH (fun x => x) qGas [qGas] [2]
    "Lorenz" "Transmission" 0 true false qTbl 2 2 2 2 rfl rfl rfl rfl rfl
    (by norm_num) (by decide) (by decide) (by decide) (by decide)

/-- Any mode string other than the two recognised ones behaves exactly like
the fall-through (raw coefficient) mode. -/
lemma calDasGo_mode_raw (H : Hapi α) (e : α → α) (prof : String) (iCut : α)
    (xi mden : Bool) (mode : String)
    (hA : mode ≠ "Absorbance") (hT : mode ≠ "Transmission") :
    ∀ (gl : List (GasParams α)) (nu : List α) (nPrev : Option α)
      (acc : List (DasResult α)),
      calDasGo H e prof mode iCut xi mden gl nu nPrev acc =
        calDasGo H e prof "Coefficient" iCut xi mden gl nu nPrev acc
  | [], _, _, _ => rfl
  | g :: gs, nu, nPrev, acc => by
    have hmode : ¬(mode = "Absorbance" ∨ mode = "Transmission") := by
      rintro (h | h) <;> contradiction
    unfold calDasGo
    cases hchk : dasCheck H prof iCut g nu with
    | inl d => rfl
    | inr r =>
      obtain ⟨nu2, coeff⟩ := r
      have hcoef : ¬("Coefficient" = "Absorbance" ∨
          "Coefficient" = "Transmission") := by decide
      simp only [if_neg hmode, if_neg hcoef]
      exact calDasGo_mode_raw H e prof iCut xi mden mode hA hT gs nu2 _ _

/-- **C9.** Every mode string other than `'Absorbance'` and
`'Transmission'` — including the spec's `'Coefficient'`, the docstring's
`'Absorb coeff'`, and any misspelling — raises no error and produces
exactly the Coefficient-mode (raw, unscaled) output. -/
theorem calDas_other_mode_eq_coefficient (H : Hapi α) (e : α → α)
    (gl : List (GasParams α)) (nu : List α) (prof mode : String) (iCut : α)
    (xi mden : Bool) (hA : mode ≠ "Absorbance") (hT : mode ≠ "Transmission") :
    calDas H e gl nu prof mode iCut xi mden =
      calDas H e gl nu prof "Coefficient" iCut xi mden :=
  calDasGo_mode_raw H e prof iCut xi mden mode hA hT gl nu none []

/-- Witness for C9 at the docstring's mode name `'Absorb coeff'`. -/
theorem calDas_other_mode_eq_coefficient_witness :
    calDas qH (fun x => x) [qGas] [(2 : ℚ)] "Voigt" "Absorb coeff" 0
      true false =
      calDas qH (fun x => x) [qGas] [(2 : ℚ)] "Voigt" "Coefficient" 0
        true false :=
  calDas_other_mode_eq_coefficient qH (fun x => x) [qGas] [2] "Voigt"
    "Absorb coeff" 0 true false (by decide) (by decide)

/-! ## C7: Coefficient mode ignores concentration and path length -/

/-- Projection of a result to the fields the Coefficient-independence claim
is about: the grid and the spectrum (the echoed `gasParams` of course still
carry `c` and `l`). -/
def resView (r : DasResult α) : List α × List α := (r.nu, r.spectrum)

/-- A `calDas` outcome with each result projected through `resView`. -/
inductive DasView (α : Type) where
  | ok : List (List α × List α) → DasView α
  | errString : String → DasView α
  | raised : String → DasView α
deriving DecidableEq

/-- View of an outcome: keeps the branch and message, projects results. -/
def viewOf : DasOutcome α → DasView α
  | .ok rs => .ok (rs.map resView)
  | .errString s => .errString s
  | .raised s => .raised s

/-- Two gas entries that agree on everything except possibly `c` and `l`. -/
def sameGasPT (g1 g2 : GasParams α) : Prop :=
  g1.gas = g2.gas ∧ g1.p = g2.p ∧ g1.t = g2.t

/-- The validation step reads only `gas`, `p` and `t` of the gas entry. -/
lemma dasCheck_congr (H : Hapi α) (prof : String) (iCut : α)
    (g1 g2 : GasParams α) (nu : List α)
    (hgas : g1.gas = g2.gas) (hp : g1.p = g2.p) (ht : g1.t = g2.t) :
    dasCheck H prof iCut g1 nu = dasCheck H prof iCut g2 nu := by
  unfold dasCheck
  rw [hgas, hp, ht]

/-- Gas lists agreeing except on `c`/`l` drive the Coefficient-mode loop to
view-equal outcomes, whatever `n` state and view-equal accumulators the two
runs start from. -/
lemma calDasGo_coeff_view (H : Hapi α) (e : α → α) (prof : String)
    (iCut : α) (xi mden : Bool)
    (gl1 gl2 : List (GasParams α)) (hrel : List.Forall₂ sameGasPT gl1 gl2) :
    ∀ (nu : List α) (n1 n2 : Option α) (acc1 acc2 : List (DasResult α)),
      acc1.map resView = acc2.map resView →
      viewOf (calDasGo H e prof "Coefficient" iCut xi mden gl1 nu n1 acc1) =
        viewOf (calDasGo H e prof "Coefficient" iCut xi mden gl2 nu n2 acc2) := by
  induction hrel with
  | nil =>
    intro nu n1 n2 acc1 acc2 hacc
    simp [calDasGo, viewOf, List.map_reverse, hacc]
  | @cons a b l1 l2 h1 h2 ih =>
    intro nu n1 n2 acc1 acc2 hacc
    unfold calDasGo
    rw [dasCheck_congr H prof iCut a b nu h1.1 h1.2.1 h1.2.2]
    cases hchk : dasCheck H prof iCut b nu with
    | inl d => rfl
    | inr r =>
      obtain ⟨nu2, coeff⟩ := r
      have hcoef : ¬("Coefficient" = "Absorbance" ∨
          "Coefficient" = "Transmission") := by decide
      simp only [if_neg hcoef]
      exact ih nu2 _ _ _ _ (by simp [resView, hacc])

/-- **C7.** With `mode = 'Coefficient'`, two gas lists differing only in the
concentration and path-length fields produce identical outcomes up to the
echoed gas parameters: same grids, same spectra, same failure branch. -/
theorem calDas_coefficient_ignores_conc_path (H : Hapi α) (e : α → α)
    (gl1 gl2 : List (GasParams α)) (nu : List α) (prof : String)
    (iCut : α) (xi mden : Bool) (hrel : List.Forall₂ sameGasPT gl1 gl2) :
    viewOf (calDas H e gl1 nu prof "Coefficient" iCut xi mden) =
      viewOf (calDas H e gl2 nu prof "Coefficient" iCut xi mden) :=
  calDasGo_coeff_view H e prof iCut xi mden gl1 gl2 hrel nu none none [] [] rfl

/-- Witness for C7: same gas with `l` changed from 1 to 5 and `c` from 0 to
7 yields the same Coefficient-mode view. -/
theorem calDas_coefficient_ignores_conc_path_witness :
    viewOf (calDas qH (fun x => x) [qGas] [(2 : ℚ)] "Voigt" "Coefficient"
        0 true false) =
      viewOf (calDas qH (fun x => x) [⟨"G", 1013, 1, 5, 7⟩] [(2 : ℚ)]
        "Voigt" "Coefficient" 0 true false) :=
  calDas_coefficient_ignores_conc_path qH (fun x => x) [qGas]
    [⟨"G", 1013, 1, 5, 7⟩] [2] "Voigt" 0 true false
    (List.Forall₂.cons ⟨rfl, rfl, rfl⟩ List.Forall₂.nil)

/-! ## C8: the adapter-returned grid is threaded to the next gas -/

/-- One-step unfolding of the loop at a cons cell. -/
lemma calDasGo_cons (H : Hapi α) (e : α → α) (prof mode : String)
    (iCut : α) (xi mden : Bool) (g : GasParams α) (gs : List (GasParams α))
    (nu : List α) (nPrev : Option α) (acc : List (DasResult α)) :
    calDasGo H e prof mode iCut xi mden (g :: gs) nu nPrev acc =
      match dasCheck H prof iCut g nu with
      | .inl d => d.toOutcome
      | .inr (nu2, coeff) =>
        if mode = "Absorbance" ∨ mode = "Transmission" then
          match nextN xi mden g nPrev with
          | none => .raised nameErrMsg
          | some n =>
            calDasGo H e prof mode iCut xi mden gs nu2 (some n)
              (⟨g, nu2, scaleMode e mode n g.l coeff⟩ :: acc)
        else
          calDasGo H e prof mode iCut xi mden gs nu2 (nextN xi mden g nPrev)
            (⟨g, nu2, coeff⟩ :: acc) := rfl

/-- **C8.** When the first gas passes validation and its adapter call
returns the pair `(nu2, coeff)`, the loop continues on the remaining gases
with grid `nu2` — the grid the adapter returned — not with the
caller-supplied grid `nu`: the range check, line selection and adapter call
for the second and later gases all receive `nu2`. -/
theorem calDas_threads_adapter_grid (H : Hapi α) (e : α → α)
    (g1 : GasParams α) (rest : List (GasParams α)) (nu nu2 coeff : List α)
    (prof mode : String) (iCut : α) (xi mden : Bool)
    (nPrev : Option α) (acc : List (DasResult α))
    (tbl : LineTable α) (mn mx tmn tmx n : α)
    (htbl : H.tables g1.gas = some tbl)
    (hmn : nu.min? = some mn) (hmx : nu.max? = some mx)
    (htmn : tbl.nu.min? = some tmn) (htmx : tbl.nu.max? = some tmx)
    (hrange : ¬(mn < tmn - 1 ∨ mn > tmx + 1 ∨ mx > tmx + 1 ∨ mx < tmn - 1))
    (happ : applyProfile H prof (selectLines tbl mn mx iCut) nu g1.t
        (g1.p / 1013) iCut = some (nu2, coeff))
    (hn : nextN xi mden g1 nPrev = some n) :
    calDasGo H e prof mode iCut xi mden (g1 :: rest) nu nPrev acc =
      calDasGo H e prof mode iCut xi mden rest nu2 (some n)
        (⟨g1, nu2, scaleMode e mode n g1.l coeff⟩ :: acc) := by
  rw [calDasGo_cons]
  rw [dasCheck_eq H prof iCut g1 nu tbl mn mx tmn tmx htbl hmn hmx htmn htmx]
  simp only [if_neg hrange, happ]
  by_cases hmode : mode = "Absorbance" ∨ mode = "Transmission"
  · simp only [if_pos hmode, hn]
  · simp only [if_neg hmode, hn]
    have hsc : scaleMode e mode n g1.l coeff = coeff := by
      unfold scaleMode
      rcases not_or.mp hmode with ⟨hA, hT⟩
      rw [if_neg hA, if_neg hT]
    rw [hsc]

/-- Witness for C8 at the rational fixture, with a two-gas batch. -/
theorem calDas_threads_adapter_grid_witness :
    calDasGo qH (fun x => x) "Voigt" "Coefficient" (0 : ℚ) true false
        [qGas, qGas] [2] none [] =
      calDasGo qH (fun x => x) "Voigt" "Coefficient" (0 : ℚ) true false
        [qGas] [2] (some (mixRatio2numDen 0 (1013 / 1013) 1))
        [⟨qGas, [2], scaleMode (fun x => x) "Coefficient"
            (mixRatio2numDen 0 (1013 / 1013) 1) qGas.l [1]⟩] :=
  calDas_threads_adapter_grid qH (fun x => x) qGas [qGas] [2] [2] [1]
    "Voigt" "Coefficient" 0 true false none [] qTbl 2 2 2 2
    (mixRatio2numDen 0 (1013 / 1013) 1)
    rfl rfl rfl rfl rfl (by norm_num) rfl rfl

/-! ## C1: Transmission = exp(−coeff·n·l), values in (0,1], −log round-trip -/

/-- `scaleMode` at the literal `'Transmission'`. -/
lemma scaleMode_trans (e : α → α) (n l : α) (coeff : List α) :
    scaleMode e "Transmission" n l coeff =
      coeff.map (fun x => e (-(x * n * l))) := by
  unfold scaleMode
  rw [if_neg (by decide : ¬("Transmission" = "Absorbance")), if_pos rfl]

/-- `scaleMode` at the literal `'Absorbance'`. -/
lemma scaleMode_abs (e : α → α) (n l : α) (coeff : List α) :
    scaleMode e "Absorbance" n l coeff = coeff.map (fun x => x * n * l) := by
  unfold scaleMode
  rw [if_pos rfl]

/-- Apply the per-mode scaling of lines 198-202 to a raw (Coefficient-mode)
result: the spectrum is scaled with the gas's own number density and path
length. -/
def postScale (e : α → α) (mode : String) (xi mden : Bool)
    (r : DasResult α) : DasResult α :=
  ⟨r.gasParams, r.nu,
    scaleMode e mode (nVal xi mden r.gasParams) r.gasParams.l r.spectrum⟩

/-- Map a function over the results of a successful outcome. -/
def mapOk (f : List (DasResult α) → List (DasResult α)) :
    DasOutcome α → DasOutcome α
  | .ok rs => .ok (f rs)
  | .errString s => .errString s
  | .raised s => .raised s

/-- When a conversion flag is set, the Python local `n` is freshly assigned
for every gas. -/
lemma nextN_flag {xi mden : Bool} (hflag : xi = true ∨ mden = true)
    (g : GasParams α) (nPrev : Option α) :
    nextN xi mden g nPrev = some (nVal xi mden g) := by
  cases hm : mden with
  | true => simp [nextN, nOf, nVal, hm]
  | false =>
    have hx : xi = true := by
      rcases hflag with h | h
      · exact h
      · rw [h] at hm; cases hm
    simp [nextN, nOf, nVal, hm, hx]

/-- A run in a scaled mode (`Absorbance` or `Transmission`) is the
Coefficient-mode run with every result post-scaled, provided a conversion
flag is set (so the `NameError` branch is unreachable). -/
lemma calDasGo_scaled_view (H : Hapi α) (e : α → α) (prof : String)
    (iCut : α) (xi mden : Bool) (mode : String)
    (hmode : mode = "Absorbance" ∨ mode = "Transmission")
    (hflag : xi = true ∨ mden = true) :
    ∀ (gl : List (GasParams α)) (nu : List α) (n1 n2 : Option α)
      (acc : List (DasResult α)),
      calDasGo H e prof mode iCut xi mden gl nu n1
          (acc.map (postScale e mode xi mden)) =
        mapOk (List.map (postScale e mode xi mden))
          (calDasGo H e prof "Coefficient" iCut xi mden gl nu n2 acc)
  | [], nu, n1, n2, acc => by
    simp [calDasGo, mapOk, List.map_reverse]
  | g :: gs, nu, n1, n2, acc => by
    rw [calDasGo_cons, calDasGo_cons]
    cases hchk : dasCheck H prof iCut g nu with
    | inl d => cases d <;> rfl
    | inr r =>
      obtain ⟨nu2, coeff⟩ := r
      have hcoef : ¬("Coefficient" = "Absorbance" ∨
          "Coefficient" = "Transmission") := by decide
      simp only [if_pos hmode, if_neg hcoef, nextN_flag hflag]
      exact calDasGo_scaled_view H e prof iCut xi mden mode hmode hflag gs
        nu2 (some (nVal xi mden g)) (some (nVal xi mden g))
        (⟨g, nu2, coeff⟩ :: acc)

/-- Every result of a successful run carries the gas parameters of some
gas in the input list. -/
lemma calDasGo_mem_gasList (H : Hapi α) (e : α → α) (prof mode : String)
    (iCut : α) (xi mden : Bool) :
    ∀ (gl : List (GasParams α)) (nu : List α) (nPrev : Option α)
      (acc : List (DasResult α)) (rs : List (DasResult α)),
      calDasGo H e prof mode iCut xi mden gl nu nPrev acc = .ok rs →
      ∀ r ∈ rs, (∃ g ∈ gl, r.gasParams = g) ∨ r ∈ acc
  | [], nu, nPrev, acc, rs, h, r, hr => by
    simp only [calDasGo] at h
    cases h
    exact Or.inr (List.mem_reverse.mp hr)
  | g :: gs, nu, nPrev, acc, rs, h, r, hr => by
    rw [calDasGo_cons] at h
    revert h
    cases hchk : dasCheck H prof iCut g nu with
    | inl d => cases d <;> intro h <;> cases h
    | inr pr =>
      obtain ⟨nu2, coeff⟩ := pr
      by_cases hmode : mode = "Absorbance" ∨ mode = "Transmission"
      · simp only [if_pos hmode]
        cases hn : nextN xi mden g nPrev with
        | none => intro h; cases h
        | some n =>
          intro h
          rcases calDasGo_mem_gasList H e prof mode iCut xi mden gs nu2
              (some n) _ rs h r hr with hg | hacc
          · rcases hg with ⟨g2, hg2, hrg⟩
            exact Or.inl ⟨g2, List.mem_cons_of_mem g hg2, hrg⟩
          · rcases List.mem_cons.mp hacc with hEq | hmem
            · exact Or.inl ⟨g, List.mem_cons_self g gs, by rw [hEq]⟩
            · exact Or.inr hmem
      · simp only [if_neg hmode]
        intro h
        rcases calDasGo_mem_gasList H e prof mode iCut xi mden gs nu2
            (nextN xi mden g nPrev) _ rs h r hr with hg | hacc
        · rcases hg with ⟨g2, hg2, hrg⟩
          exact Or.inl ⟨g2, List.mem_cons_of_mem g hg2, hrg⟩
        · rcases List.mem_cons.mp hacc with hEq | hmem
          · exact Or.inl ⟨g, List.mem_cons_self g gs, by rw [hEq]⟩
          · exact Or.inr hmem

/-- The number density computed with the default flags is nonnegative for
a physically valid gas entry. -/
lemma nVal_nonneg (g : GasParams α) (hc : 0 ≤ g.c) (hp : 0 ≤ g.p)
    (ht : 0 < g.t) : 0 ≤ nVal true false g := by
  have hkb : (0 : α) < kb := by
    unfold kb; positivity
  have : nVal true false g =
      g.p / 1013 * 101300 / kb / g.t * (1 / 10 ^ 6) * g.c := rfl
  rw [this]
  have h1 : (0 : α) ≤ g.p / 1013 * 101300 :=
    mul_nonneg (div_nonneg hp (by norm_num)) (by norm_num)
  have h2 : (0 : α) ≤ g.p / 1013 * 101300 / kb / g.t :=
    div_nonneg (div_nonneg h1 hkb.le) ht.le
  exact mul_nonneg (mul_nonneg h2 (by norm_num)) hc

/-- Flip a transmission spectrum back through `−ln`. -/
noncomputable def negLog (r : DasResult ℝ) : DasResult ℝ :=
  ⟨r.gasParams, r.nu, r.spectrum.map (fun v => -Real.log v)⟩

/-- **C1.** Whenever `calDas` succeeds in Coefficient mode on a physically
valid gas list, the Transmission-mode run succeeds with values
`exp (−(raw · numberDensity · pathLength))`; those values lie in `(0, 1]`
when the raw coefficients are nonnegative; the Absorbance-mode run succeeds
with values `raw · numberDensity · pathLength`; and applying `−ln` to each
Transmission value gives exactly the Absorbance values. -/
theorem calDas_transmission_roundtrip (H : Hapi ℝ)
    (gl : List (GasParams ℝ)) (nu : List ℝ) (prof : String) (iCut : ℝ)
    (cs : List (DasResult ℝ))
    (hcs : calDas H Real.exp gl nu prof "Coefficient" iCut true false =
      .ok cs)
    (hvalid : ∀ g ∈ gl, 0 ≤ g.c ∧ 0 ≤ g.p ∧ 0 < g.t ∧ 0 ≤ g.l)
    (hraw : ∀ r ∈ cs, ∀ x ∈ r.spectrum, 0 ≤ x) :
    calDas H Real.exp gl nu prof "Transmission" iCut true false =
        .ok (cs.map (postScale Real.exp "Transmission" true false)) ∧
      (∀ r ∈ cs.map (postScale Real.exp "Transmission" true false),
        ∀ v ∈ r.spectrum, 0 < v ∧ v ≤ 1) ∧
      calDas H Real.exp gl nu prof "Absorbance" iCut true false =
        .ok (cs.map (postScale Real.exp "Absorbance" true false)) ∧
      (cs.map (postScale Real.exp "Transmission" true false)).map negLog =
        cs.map (postScale Real.exp "Absorbance" true false) := by
  have hcs2 : calDasGo H Real.exp prof "Coefficient" iCut true false gl nu
      none [] = .ok cs := hcs
  have hT : calDas H Real.exp gl nu prof "Transmission" iCut true false =
      .ok (cs.map (postScale Real.exp "Transmission" true false)) := by
    have := calDasGo_scaled_view H Real.exp prof iCut true false
      "Transmission" (Or.inr rfl) (Or.inl rfl) gl nu none none []
    unfold calDas
    simpa [hcs2, mapOk] using this
  have hA : calDas H Real.exp gl nu prof "Absorbance" iCut true false =
      .ok (cs.map (postScale Real.exp "Absorbance" true false)) := by
    have := calDasGo_scaled_view H Real.exp prof iCut true false
      "Absorbance" (Or.inl rfl) (Or.inl rfl) gl nu none none []
    unfold calDas
    simpa [hcs2, mapOk] using this
  refine ⟨hT, ?_, hA, ?_⟩
  · intro r hr v hv
    rcases List.mem_map.mp hr with ⟨r0, hr0, hrr⟩
    subst hrr
    have hsc : (postScale Real.exp "Transmission" true false r0).spectrum =
        r0.spectrum.map (fun x => Real.exp
          (-(x * nVal true false r0.gasParams * r0.gasParams.l))) := by
      unfold postScale
      rw [scaleMode_trans]
    rw [hsc] at hv
    rcases List.mem_map.mp hv with ⟨x, hx, hxv⟩
    subst hxv
    have hx0 : 0 ≤ x := hraw r0 hr0 x hx
    have hg : ∃ g ∈ gl, r0.gasParams = g := by
      rcases calDasGo_mem_gasList H Real.exp prof "Coefficient" iCut true
          false gl nu none [] cs hcs r0 hr0 with h | h
      · exact h
      · cases h
    rcases hg with ⟨g, hgmem, hgeq⟩
    rcases hvalid g hgmem with ⟨hc, hp, ht, hl⟩
    have hn : 0 ≤ nVal true false r0.gasParams := by
      rw [hgeq]; exact nVal_nonneg g hc hp ht
    have hl0 : 0 ≤ r0.gasParams.l := by rw [hgeq]; exact hl
    constructor
    · exact Real.exp_pos _
    · rw [Real.exp_le_one_iff]
      have : 0 ≤ x * nVal true false r0.gasParams * r0.gasParams.l :=
        mul_nonneg (mul_nonneg hx0 hn) hl0
      linarith
  · rw [List.map_map]
    apply List.map_congr_left
    intro r hr
    simp only [Function.comp_apply]
    unfold negLog postScale
    rw [scaleMode_trans, scaleMode_abs, List.map_map]
    refine congrArg (DasResult.mk r.gasParams r.nu) ?_
    apply List.map_congr_left
    intro x hx
    simp [Function.comp, Real.log_exp]

/-- Real-number line-table fixture, for the claims that involve `exp`. -/
def rTbl : LineTable ℝ := ⟨[2], [1]⟩

/-- Real-number adapter fixture: one gas `G`, all profiles returning the
constant answer `([2], [1])`. -/
def rH : Hapi ℝ :=
  ⟨fun s => if s = "G" then some rTbl else none,
   fun _ _ _ _ => ([2], [1]),
   fun _ _ _ _ _ => ([2], [1]),
   fun _ _ _ _ _ => ([2], [1]),
   fun _ _ _ _ _ => ([2], [1])⟩

/-- Real-number gas fixture. -/
def rGas : GasParams ℝ := ⟨"G", 1013, 1, 1, 0⟩

/-- Witness for C1 at the real fixture. -/
theorem calDas_transmission_roundtrip_witness :
    calDas rH Real.exp [rGas] [(2 : ℝ)] "Voigt" "Transmission" 0 true
        false =
        .ok ([⟨rGas, [2], [1]⟩].map
          (postScale Real.exp "Transmission" true false)) ∧
      (∀ r ∈ [(⟨rGas, [2], [1]⟩ : DasResult ℝ)].map
          (postScale Real.exp "Transmission" true false),
        ∀ v ∈ r.spectrum, 0 < v ∧ v ≤ 1) ∧
      calDas rH Real.exp [rGas] [(2 : ℝ)] "Voigt" "Absorbance" 0 true
        false =
        .ok ([⟨rGas, [2], [1]⟩].map
          (postScale Real.exp "Absorbance" true false)) ∧
      ([(⟨rGas, [2], [1]⟩ : DasResult ℝ)].map
          (postScale Real.exp "Transmission" true false)).map negLog =
        [⟨rGas, [2], [1]⟩].map (postScale Real.exp "Absorbance" true
          false) :=
  calDas_transmission_roundtrip rH [rGas] [2] "Voigt" 0 [⟨rGas, [2], [1]⟩]
    (by norm_num +decide [calDas, calDasGo, dasCheck, rH, rGas, rTbl,
      selectLines, applyProfile, nextN, nOf, scaleMode])
    (by
      intro g hg
      rw [List.mem_singleton] at hg
      subst hg
      norm_num [rGas])
    (by
      intro r hr x hx
      rw [List.mem_singleton] at hr
      subst hr
      simp at hx
      subst hx
      norm_num)

/-! ## C3: the theoretical-WMS auxiliary grid -/

/-- `np.linspace(a, b, n)`: `n` evenly spaced points from `a` to `b`
inclusive (a single point is `a`). -/
def linspace (a b : α) (n : ℕ) : List α :=
  if n = 1 then [a]
  else (List.range n).map (fun i : ℕ => a + (b - a) * (i : α) / ((n : α) - 1))

/-- Python's `int()` conversion: truncation toward zero. -/
def pyInt {α : Type} [LinearOrderedField α] [FloorRing α] (q : α) : ℤ :=
  if q < 0 then ⌈q⌉ else ⌊q⌋

/-- The high-resolution auxiliary grid of the theoretical WMS method
(`specCal.py` line 330):
`np.linspace(minNu, maxNu, int((maxNu - minNu) / dNu * 1024) + 1)`. -/
def calWmsHdNu [FloorRing α] (minNu maxNu dNu : α) : List α :=
  linspace minNu maxNu ((pyInt ((maxNu - minNu) / dNu * 1024)).toNat + 1)

lemma linspace_length (a b : α) (n : ℕ) : (linspace a b n).length = n := by
  unfold linspace
  split
  · simp [*]
  · simp

lemma linspace_head (a b : α) (n : ℕ) (hn : n ≠ 0) :
    (linspace a b n).head? = some a := by
  unfold linspace
  split
  · rfl
  · cases n with
    | zero => cases hn rfl
    | succ m =>
      rw [List.range_succ_eq_map]
      simp

lemma linspace_getLast (a b : α) (n : ℕ) (hn : 2 ≤ n) :
    (linspace a b n).getLast? = some b := by
  unfold linspace
  rw [if_neg (by omega : ¬ n = 1)]
  obtain ⟨m, rfl⟩ : ∃ m, n = m + 2 := ⟨n - 2, by omega⟩
  rw [List.range_succ, List.map_append, List.map_cons, List.map_nil,
    List.getLast?_concat]
  refine congrArg some ?_
  have hd : ((m + 2 : ℕ) : α) - 1 = ((m + 1 : ℕ) : α) := by push_cast; ring
  have hcast : ((m + 1 : ℕ) : α) ≠ 0 := Nat.cast_ne_zero.mpr (Nat.succ_ne_zero m)
  rw [hd, mul_div_assoc, div_self hcast, mul_one]
  ring

/-- Counterexample to C3 as stated: with `min = 0`, `max = 1`,
`dNu = 2048/3` the scale factor is `1.5`; Python's `int()` truncates to 1
(2 grid points) while the claimed `round` gives 2 (3 grid points). -/
theorem calWmsHdNu_count_not_round :
    (calWmsHdNu (0 : ℚ) 1 (2048 / 3)).length ≠
      (round (((1 : ℚ) - 0) / (2048 / 3) * 1024)).toNat + 1 := by
  have harg : ((1 : ℚ) - 0) / (2048 / 3) * 1024 = 3 / 2 := by norm_num
  have hfloor : ⌊(3 : ℚ) / 2⌋ = 1 := by norm_num
  have hround : round ((3 : ℚ) / 2) = 2 := by norm_num [round_eq]
  unfold calWmsHdNu
  rw [linspace_length, harg]
  unfold pyInt
  rw [if_neg (by norm_num), hfloor, hround]
  decide

/-- **C3 (amended).** The theoretical WMS auxiliary grid has exactly
`int((max − min)/dNu · 1024) + 1` points — `int()` truncating, not
rounding — and spans `[min(grid), max(grid)]`: it starts at the minimum
and, whenever it has at least two points, ends at the maximum. -/
theorem calWmsHdNu_grid [FloorRing α] (mn mx dNu : α)
    (h2 : 2 ≤ (pyInt ((mx - mn) / dNu * 1024)).toNat + 1) :
    (calWmsHdNu mn mx dNu).length =
        (pyInt ((mx - mn) / dNu * 1024)).toNat + 1 ∧
      (calWmsHdNu mn mx dNu).head? = some mn ∧
      (calWmsHdNu mn mx dNu).getLast? = some mx :=
  ⟨linspace_length mn mx _,
   linspace_head mn mx _ (Nat.succ_ne_zero _),
   linspace_getLast mn mx _ h2⟩

/-- Witness for the amended C3: `min = 0`, `max = 1`, `dNu = 256` gives a
5-point grid from 0 to 1. -/
theorem calWmsHdNu_grid_witness :
    (calWmsHdNu (0 : ℚ) 1 256).length =
        (pyInt (((1 : ℚ) - 0) / 256 * 1024)).toNat + 1 ∧
      (calWmsHdNu (0 : ℚ) 1 256).head? = some 0 ∧
      (calWmsHdNu (0 : ℚ) 1 256).getLast? = some 1 :=
  calWmsHdNu_grid 0 1 256 (by norm_num [pyInt]; decide)

/-! ## C4: the synthesized driving current in the simulation method -/

/-- Ramp component of the driving current (`specCal.py` line 382):
`currRamp = (np.linspace(0, aRamp, nS) - aRamp * 0.5) / 1000`. -/
def calWmsCurrRamp (aRamp : α) (nS : ℕ) : List α :=
  (linspace 0 aRamp nS).map (fun x => (x - aRamp * (1 / 2)) / 1000)

/-- Modulation component of the driving current at sample time `t`
(`specCal.py` line 383): `0.5 * aMod * np.sin(2 * pi * fMod * ts) / 1000`. -/
noncomputable def calWmsCurrMod (aMod fMod t : ℝ) : ℝ :=
  1 / 2 * aMod * Real.sin (2 * Real.pi * fMod * t) / 1000

/-- The `i`-th ramp sample, in closed form. -/
lemma calWmsCurrRamp_getD (aRamp : α) (nS i : ℕ) (h2 : 2 ≤ nS)
    (hi : i < nS) :
    (calWmsCurrRamp aRamp nS).getD i 0 =
      (aRamp * (i : α) / ((nS : α) - 1) - aRamp * (1 / 2)) / 1000 := by
  unfold calWmsCurrRamp linspace
  rw [if_neg (by omega : ¬ nS = 1)]
  rw [List.map_map, List.getD_eq_getElem?_getD, List.getElem?_map,
    List.getElem?_range hi]
  simp [Function.comp]

/-- Counterexample to C4 as stated: at `aMod = 1000`, `fMod = 1`,
`t = 1/4` the synthesized modulation current is `1/2`, not the claimed
`(aMod/1000)·sin(2π·fMod·t) = 1`: the code halves the amplitude. -/
theorem calWmsCurrMod_not_full_amplitude :
    calWmsCurrMod 1000 1 (1 / 4) ≠
      1000 / 1000 * Real.sin (2 * Real.pi * 1 * (1 / 4)) := by
  have harg : 2 * Real.pi * 1 * (1 / 4) = Real.pi / 2 := by ring
  unfold calWmsCurrMod
  rw [harg, Real.sin_pi_div_two]
  norm_num

/-- **C4 (amended).** The synthesized driving current is a linear ramp
centered at zero spanning `±aRamp/2000` (peak-to-peak amplitude
`aRamp/1000`) plus a sinusoid at frequency `fMod` of amplitude *half*
`aMod` divided by 1000: the modulation current at time `t` is
`0.5·(aMod/1000)·sin(2π·fMod·t)`. -/
theorem calWms_drive_current (aRamp aMod fMod t : ℝ) (nS i : ℕ)
    (h2 : 2 ≤ nS) (hi : i < nS) :
    calWmsCurrMod aMod fMod t =
        1 / 2 * (aMod / 1000) * Real.sin (2 * Real.pi * fMod * t) ∧
      (calWmsCurrRamp aRamp nS).getD i 0 =
        -(aRamp / 2000) + aRamp / 1000 * i / ((nS : ℝ) - 1) ∧
      (calWmsCurrRamp aRamp nS).getD i 0 +
        (calWmsCurrRamp aRamp nS).getD (nS - 1 - i) 0 = 0 := by
  have hd : ((nS : ℝ) - 1) ≠ 0 := by
    have h1 : (2 : ℝ) ≤ (nS : ℝ) := by exact_mod_cast h2
    linarith
  refine ⟨by unfold calWmsCurrMod; ring, ?_, ?_⟩
  · rw [calWmsCurrRamp_getD aRamp nS i h2 hi]
    field_simp
    ring
  · rw [calWmsCurrRamp_getD aRamp nS i h2 hi,
      calWmsCurrRamp_getD aRamp nS (nS - 1 - i) h2 (by omega)]
    have hcast : ((nS - 1 - i : ℕ) : ℝ) = (nS : ℝ) - 1 - (i : ℝ) := by
      rw [Nat.cast_sub (by omega : i ≤ nS - 1),
        Nat.cast_sub (by omega : 1 ≤ nS)]
      norm_num
    rw [hcast]
    field_simp
    ring

/-- Witness for the amended C4 at `aRamp = 2000`, `aMod = 1000`,
`fMod = 1`, `t = 1/4`, `nS = 2`, `i = 0`. -/
theorem calWms_drive_current_witness :
    calWmsCurrMod 1000 1 (1 / 4) =
        1 / 2 * ((1000 : ℝ) / 1000) * Real.sin (2 * Real.pi * 1 * (1 / 4)) ∧
      (calWmsCurrRamp (2000 : ℝ) 2).getD 0 0 =
        -((2000 : ℝ) / 2000) + 2000 / 1000 * (0 : ℕ) / ((2 : ℕ) - 1) ∧
      (calWmsCurrRamp (2000 : ℝ) 2).getD 0 0 +
        (calWmsCurrRamp (2000 : ℝ) 2).getD (2 - 1 - 0) 0 = 0 :=
  calWms_drive_current 2000 1000 1 (1 / 4) 2 0 (by norm_num) (by norm_num)

/-! ## peakTroughHeight (C5, C10) -/

/-- Normalize a Python slice bound for a sequence of length `n`: a negative
index counts from the end; the result is clamped to `[0, n]`. -/
def pyIdx (n : ℕ) (i : ℤ) : ℕ :=
  if i < 0 then (i + n).toNat else min i.toNat n

/-- Python slice `l[a:b]`. -/
def pySlice (l : List α) (a b : ℤ) : List α :=
  (l.take (pyIdx l.length b)).drop (pyIdx l.length a)

/-- Accumulator loop for `np.argmax`: strict `<` keeps the first
occurrence of the maximum, as numpy does. -/
def argmaxAux : List α → ℕ → α → ℕ → ℕ
  | [], bi, _, _ => bi
  | x :: xs, bi, bv, i =>
    if bv < x then argmaxAux xs i x (i + 1) else argmaxAux xs bi bv (i + 1)

/-- `np.argmax` (`none` on an empty array, where numpy raises). -/
def argmax : List α → Option ℕ
  | [] => none
  | x :: xs => some (argmaxAux xs 0 x 1)

/-- Accumulator loop for `np.argmin`. -/
def argminAux : List α → ℕ → α → ℕ → ℕ
  | [], bi, _, _ => bi
  | x :: xs, bi, bv, i =>
    if x < bv then argminAux xs i x (i + 1) else argminAux xs bi bv (i + 1)

/-- `np.argmin` (`none` on an empty array, where numpy raises). -/
def argmin : List α → Option ℕ
  | [] => none
  | x :: xs => some (argminAux xs 0 x 1)

/-- `np.mean`; `none` models the NaN numpy returns on an empty slice. -/
def npMean (l : List α) : Option α :=
  match l with
  | [] => none
  | _ => some (l.sum / l.length)

/-- `peakTroughHeight(signal, startIdx, endIdx, avgWindow)` (`specCal.py`
lines 456-484).  `.error` models a raising numpy call (argmax/argmin of an
empty sequence), `.ok none` a NaN result (mean of an empty window).  Note
that `rTroughIdx = np.argmin(tmpSignal[peakIdx:])` is an index relative to
that slice, and the code then averages `tmpSignal` around that relative
position. -/
def peakTroughHeight (signal : List α) (startIdx endIdx : ℤ)
    (avgWindow : ℕ) : Except String (Option α) :=
  let tmp := pySlice signal startIdx endIdx
  match argmax tmp with
  | none => .error "attempt to get argmax of an empty sequence"
  | some peakIdx =>
    match argmin (pySlice tmp 0 (peakIdx : ℤ)),
        argmin (pySlice tmp (peakIdx : ℤ) tmp.length) with
    | some lT, some rT =>
      let h : ℤ := (avgWindow / 2 : ℕ)
      match npMean (pySlice tmp ((peakIdx : ℤ) - h) ((peakIdx : ℤ) + h)),
          npMean (pySlice tmp ((lT : ℤ) - h) ((lT : ℤ) + h)),
          npMean (pySlice tmp ((rT : ℤ) - h) ((rT : ℤ) + h)) with
      | some mp, some ml, some mr => .ok (some (mp - 1 / 2 * (ml + mr)))
      | _, _, _ => .ok none
    | _, _ => .error "attempt to get argmin of an empty sequence"

/-- The behaviour C5 describes (and the evident intent of the code):
identical to `peakTroughHeight` except that the right-trough averaging
window is centered on the right trough's position within `tmpSignal`,
namely `peakIdx + rTroughIdx`. -/
def peakTroughHeightSpec (signal : List α) (startIdx endIdx : ℤ)
    (avgWindow : ℕ) : Except String (Option α) :=
  let tmp := pySlice signal startIdx endIdx
  match argmax tmp with
  | none => .error "attempt to get argmax of an empty sequence"
  | some peakIdx =>
    match argmin (pySlice tmp 0 (peakIdx : ℤ)),
        argmin (pySlice tmp (peakIdx : ℤ) tmp.length) with
    | some lT, some rT =>
      let h : ℤ := (avgWindow / 2 : ℕ)
      match npMean (pySlice tmp ((peakIdx : ℤ) - h) ((peakIdx : ℤ) + h)),
          npMean (pySlice tmp ((lT : ℤ) - h) ((lT : ℤ) + h)),
          npMean (pySlice tmp ((peakIdx + rT : ℤ) - h)
            ((peakIdx + rT : ℤ) + h)) with
      | some mp, some ml, some mr => .ok (some (mp - 1 / 2 * (ml + mr)))
      | _, _, _ => .ok none
    | _, _ => .error "attempt to get argmin of an empty sequence"

/-- **C5.** On `signal = [1, 0, 5, 4, 3, -1, 2]`, `startIdx = 0`,
`endIdx = 7`, `avgWindow = 2` the code returns 0: it averages
`tmpSignal[2:4] = [5, 4]` — the window centered at the slice-relative
right-trough index 3 — instead of `tmpSignal[4:6] = [3, -1]` around the
actual right trough at index 5, which would give the described value
`7/4`. -/
theorem peakTroughHeight_right_trough_bug :
    peakTroughHeight [(1 : ℚ), 0, 5, 4, 3, -1, 2] 0 7 2 = .ok (some 0) ∧
      peakTroughHeightSpec [(1 : ℚ), 0, 5, 4, 3, -1, 2] 0 7 2 =
        .ok (some (7 / 4)) := by
  have htmp : pySlice [(1 : ℚ), 0, 5, 4, 3, -1, 2] 0 7 =
      [1, 0, 5, 4, 3, -1, 2] := rfl
  have hmax : argmax [(1 : ℚ), 0, 5, 4, 3, -1, 2] = some 2 := rfl
  have hsl : pySlice [(1 : ℚ), 0, 5, 4, 3, -1, 2] 0 2 = [1, 0] := rfl
  have hlmin : argmin [(1 : ℚ), 0] = some 1 := rfl
  have hsr : pySlice [(1 : ℚ), 0, 5, 4, 3, -1, 2] 2 7 = [5, 4, 3, -1, 2] :=
    rfl
  have hrmin : argmin [(5 : ℚ), 4, 3, -1, 2] = some 3 := rfl
  have hm1 : pySlice [(1 : ℚ), 0, 5, 4, 3, -1, 2] 1 3 = [0, 5] := rfl
  have hmean1 : npMean [(0 : ℚ), 5] = some (5 / 2) := by norm_num [npMean]
  have hmean2 : npMean [(1 : ℚ), 0] = some (1 / 2) := by norm_num [npMean]
  have hm3 : pySlice [(1 : ℚ), 0, 5, 4, 3, -1, 2] 2 4 = [5, 4] := rfl
  have hmean3 : npMean [(5 : ℚ), 4] = some (9 / 2) := by norm_num [npMean]
  have hm4 : pySlice [(1 : ℚ), 0, 5, 4, 3, -1, 2] 4 6 = [3, -1] := rfl
  have hmean4 : npMean [(3 : ℚ), -1] = some 1 := by norm_num [npMean]
  constructor
  · simp only [peakTroughHeight]
    rw [htmp, hmax]
    norm_num [hsl, hlmin, hsr, hrmin, hm1, hmean1, hmean2, hm3, hmean3]
  · simp only [peakTroughHeightSpec]
    rw [htmp, hmax]
    norm_num [hsl, hlmin, hsr, hrmin, hm1, hmean1, hmean2, hm4, hmean4]

/-- **C10.** Whenever the global maximum of `signal[startIdx:endIdx]` sits
at position 0 of that window, the left-trough search is `np.argmin` of an
empty slice and the call raises instead of returning a value. -/
theorem peakTroughHeight_peak_at_start_raises (signal : List α)
    (startIdx endIdx : ℤ) (avgWindow : ℕ)
    (h : argmax (pySlice signal startIdx endIdx) = some 0) :
    peakTroughHeight signal startIdx endIdx avgWindow =
      .error "attempt to get argmin of an empty sequence" := by
  have hempty : pySlice (pySlice signal startIdx endIdx) 0 0 = [] := by
    unfold pySlice pyIdx
    simp
  simp only [peakTroughHeight]
  rw [h]
  simp [hempty, argmin]

/-- Witness for C10: on `[5, 1, 2]` the maximum is at position 0 and the
call raises. -/
theorem peakTroughHeight_peak_at_start_raises_witness :
    peakTroughHeight [(5 : ℚ), 1, 2] 0 3 2 =
      .error "attempt to get argmin of an empty sequence" :=
  peakTroughHeight_peak_at_start_raises [(5 : ℚ), 1, 2] 0 3 2 rfl

end QclasSpec
